import Mathlib

/-!
Verification of the geocode-resolution-and-aggregation pipeline of the
campaign-donations repository (scripts `make_half_aggregated.py`,
`map-to-municipality.py`, `calculate_totals.py`, `analyze-data.py`).

The Python code is shallowly embedded: CSV rows become association lists of
strings, Python dicts become association lists with Python's
insert/overwrite semantics, floats become rationals (`ℚ`), and fallible
operations return `Option`.  Python's `str.strip`, `str.lower`, digit
extraction and `float(...)` parsing are modelled over ASCII character
lists; the `float` model covers finite decimal/exponent literals (the
non-finite literals `inf`/`nan` and digit-group underscores play no role in
any claim and are treated as parse failures).
-/

/-- Characters removed by Python `str.strip()` (ASCII whitespace). -/
def isPySpace (c : Char) : Bool :=
  c == ' ' || c == '\t' || c == '\n' || c == '\r' || c == '\x0b' || c == '\x0c'

/-- Strip leading and trailing whitespace from a character list. -/
def stripChars (l : List Char) : List Char :=
  ((l.dropWhile isPySpace).reverse.dropWhile isPySpace).reverse

/-- Python `s.strip()`. -/
def pyStrip (s : String) : String := String.mk (stripChars s.toList)

/-- Python `s.lower()` (ASCII). -/
def pyLower (s : String) : String := String.mk (s.toList.map Char.toLower)

/-- The digit characters of a string, in order (`''.join(ch for ch in s if ch.isdigit())`). -/
def digitChars (s : String) : List Char := s.toList.filter Char.isDigit

/-- Embedding of `normalize_zip_token` (make_half_aggregated.py, lines 126-137):
strip; empty gives no token; a hyphen is trusted verbatim; exactly 9 digits
are split 5+4; at least 5 digits give the first five; otherwise no token. -/
def normalize_zip_token (s : String) : Option String :=
  let t := pyStrip s
  if t = "" then none
  else
    let ds := digitChars t
    if t.toList.contains '-' then some t
    else if ds.length = 9 then some (String.mk (ds.take 5 ++ '-' :: ds.drop 5))
    else if 5 ≤ ds.length then some (String.mk (ds.take 5))
    else none

/-- All characters are digits. -/
def isDigits (l : List Char) : Bool := l.all Char.isDigit

/-- The PostalToken invariant of the spec data model: a 5-digit code, or a
5+4 code whose only non-digit character is the single separating hyphen. -/
def isValidToken (t : String) : Bool :=
  let l := t.toList
  (l.length == 5 && isDigits l) ||
    (l.length == 10 && isDigits (l.take 5) && l[5]? == some '-' && isDigits (l.drop 6))

-- Sanity checks on the examples of spec section 8 (kept as compiled facts).
example : normalize_zip_token "59044-9338" = some "59044-9338" := by decide
example : normalize_zip_token "590449338" = some "59044-9338" := by decide
example : normalize_zip_token "59044" = some "59044" := by decide
example : normalize_zip_token "abc" = none := by decide

theorem toList_mk (l : List Char) : (String.mk l).toList = l := rfl

theorem mk_toList (s : String) : String.mk s.toList = s := by cases s; rfl

theorem dropWhile_self_of_head {α} (p : α → Bool) (l : List α)
    (h : ∀ x, l.head? = some x → p x = false) : l.dropWhile p = l := by
  cases l with
  | nil => rfl
  | cons a t => simp [List.dropWhile_cons, h a rfl]

theorem dropWhile_idem {α} (p : α → Bool) (l : List α) :
    (l.dropWhile p).dropWhile p = l.dropWhile p := by
  induction l with
  | nil => rfl
  | cons a t ih =>
    by_cases h : p a = true
    · simp [List.dropWhile_cons, h, ih]
    · simp [List.dropWhile_cons, h]

theorem head?_dropWhile_false {α} (p : α → Bool) (l : List α) :
    ∀ x, (l.dropWhile p).head? = some x → p x = false := by
  intro x hx
  have h := List.head?_dropWhile_not p l
  rw [hx] at h
  exact h

theorem getLast?_dropWhile_of_ne_nil {α} (p : α → Bool) (l : List α)
    (h : l.dropWhile p ≠ []) : (l.dropWhile p).getLast? = l.getLast? := by
  obtain ⟨u, hu⟩ := List.dropWhile_suffix (l := l) p
  conv_rhs => rw [← hu]
  rw [List.getLast?_append]
  rcases hd : (l.dropWhile p).getLast? with _ | x
  · exact absurd (List.getLast?_eq_none_iff.mp hd) h
  · rfl

theorem dropWhile_eq_self_of_all {α} (p : α → Bool) (l : List α)
    (h : ∀ x ∈ l, p x = false) : l.dropWhile p = l := by
  cases l with
  | nil => rfl
  | cons a t => simp [List.dropWhile_cons, h a (List.mem_cons_self a t)]

theorem stripChars_idem (l : List Char) : stripChars (stripChars l) = stripChars l := by
  have h1 : (stripChars l).dropWhile isPySpace = stripChars l := by
    apply dropWhile_self_of_head
    intro x hx
    unfold stripChars at hx
    rw [List.head?_reverse] at hx
    by_cases hnil : (l.dropWhile isPySpace).reverse.dropWhile isPySpace = []
    · rw [hnil] at hx; simp at hx
    · rw [getLast?_dropWhile_of_ne_nil _ _ hnil, List.getLast?_reverse] at hx
      exact head?_dropWhile_false _ _ x hx
  have h2 : (stripChars l).reverse.dropWhile isPySpace = (stripChars l).reverse := by
    unfold stripChars
    rw [List.reverse_reverse]
    exact dropWhile_idem _ _
  show (((stripChars l).dropWhile isPySpace).reverse.dropWhile isPySpace).reverse = stripChars l
  rw [h1, h2, List.reverse_reverse]

theorem pyStrip_idem (s : String) : pyStrip (pyStrip s) = pyStrip s := by
  show String.mk (stripChars (String.mk (stripChars s.toList)).toList)
      = String.mk (stripChars s.toList)
  rw [toList_mk, stripChars_idem]

theorem isPySpace_eq_false_of_isDigit {c : Char} (h : c.isDigit = true) :
    isPySpace c = false := by
  by_contra hs
  rw [Bool.not_eq_false] at hs
  simp only [isPySpace, Bool.or_eq_true, beq_iff_eq] at hs
  rcases hs with ((((h1 | h1) | h1) | h1) | h1) | h1 <;> subst h1 <;>
    exact absurd h (by decide)

theorem stripChars_eq_self_of_all (l : List Char) (h : ∀ x ∈ l, isPySpace x = false) :
    stripChars l = l := by
  unfold stripChars
  rw [dropWhile_eq_self_of_all _ _ h,
    dropWhile_eq_self_of_all _ _ (fun x hx => h x (List.mem_reverse.mp hx)),
    List.reverse_reverse]

theorem pyStrip_eq_self_of_all (s : String) (h : ∀ x ∈ s.toList, isPySpace x = false) :
    pyStrip s = s := by
  show String.mk (stripChars s.toList) = s
  rw [stripChars_eq_self_of_all _ h, mk_toList]

theorem normalize_zip_token_of_hyphen (s : String)
    (h : (pyStrip s).toList.contains '-' = true) :
    normalize_zip_token s = some (pyStrip s) := by
  have hne : pyStrip s ≠ "" := by
    intro he; rw [he] at h; exact absurd h (by decide)
  simp only [normalize_zip_token]
  rw [if_neg hne, if_pos h]

theorem normalize_zip_token_of_nine (s : String)
    (hh : (pyStrip s).toList.contains '-' = false)
    (h9 : (digitChars (pyStrip s)).length = 9) :
    normalize_zip_token s =
      some (String.mk ((digitChars (pyStrip s)).take 5 ++
        '-' :: (digitChars (pyStrip s)).drop 5)) := by
  have hne : pyStrip s ≠ "" := by
    intro he; rw [he] at h9; exact absurd h9 (by decide)
  have hh' : ¬ ((pyStrip s).toList.contains '-' = true) := by
    intro hc; rw [hc] at hh; exact absurd hh (by decide)
  simp only [normalize_zip_token]
  rw [if_neg hne, if_neg hh', if_pos h9]

theorem normalize_zip_token_of_five (s : String)
    (hh : (pyStrip s).toList.contains '-' = false)
    (h5 : 5 ≤ (digitChars (pyStrip s)).length)
    (h9 : (digitChars (pyStrip s)).length ≠ 9) :
    normalize_zip_token s = some (String.mk ((digitChars (pyStrip s)).take 5)) := by
  have hne : pyStrip s ≠ "" := by
    intro he; rw [he] at h5; exact absurd h5 (by decide)
  have hh' : ¬ ((pyStrip s).toList.contains '-' = true) := by
    intro hc; rw [hc] at hh; exact absurd hh (by decide)
  simp only [normalize_zip_token]
  rw [if_neg hne, if_neg hh', if_neg h9, if_pos h5]

theorem normalize_zip_token_of_small (s : String)
    (hh : (pyStrip s).toList.contains '-' = false)
    (h5 : (digitChars (pyStrip s)).length < 5) :
    normalize_zip_token s = none := by
  by_cases hne : pyStrip s = ""
  · simp only [normalize_zip_token]
    rw [if_pos hne]
  · have hh' : ¬ ((pyStrip s).toList.contains '-' = true) := by
      intro hc; rw [hc] at hh; exact absurd hh (by decide)
    simp only [normalize_zip_token]
    rw [if_neg hne, if_neg hh',
      if_neg (by omega : ¬ (digitChars (pyStrip s)).length = 9),
      if_neg (by omega : ¬ 5 ≤ (digitChars (pyStrip s)).length)]

theorem mem_digitChars_isDigit {s : String} {c : Char} (h : c ∈ digitChars s) :
    c.isDigit = true := (List.mem_filter.mp h).2

theorem normalize_zip_token_idem {s t : String} (h : normalize_zip_token s = some t) :
    normalize_zip_token t = some t := by
  simp only [normalize_zip_token] at h
  split_ifs at h with h1 h2 h3 h4
  · -- hyphen branch: t is the stripped input, already stripped and containing '-'
    have hts : t = pyStrip s := (Option.some.inj h).symm
    have hst : pyStrip t = t := by rw [hts]; exact pyStrip_idem s
    have hc : (pyStrip t).toList.contains '-' = true := by rw [hst, hts]; exact h2
    have hres := normalize_zip_token_of_hyphen t hc
    rw [hst] at hres
    exact hres
  · -- 9-digit branch: t is five digits, a hyphen, four digits
    have hts : t = String.mk ((digitChars (pyStrip s)).take 5 ++
        '-' :: (digitChars (pyStrip s)).drop 5) := (Option.some.inj h).symm
    have htl : t.toList = (digitChars (pyStrip s)).take 5 ++
        '-' :: (digitChars (pyStrip s)).drop 5 := by rw [hts]; rfl
    have hall : ∀ x ∈ t.toList, isPySpace x = false := by
      intro x hx
      rw [htl] at hx
      rcases List.mem_append.mp hx with hx | hx
      · exact isPySpace_eq_false_of_isDigit
          (mem_digitChars_isDigit (List.take_subset _ _ hx))
      · rcases List.mem_cons.mp hx with hx | hx
        · subst hx; decide
        · exact isPySpace_eq_false_of_isDigit
            (mem_digitChars_isDigit (List.drop_subset _ _ hx))
    have hst : pyStrip t = t := pyStrip_eq_self_of_all t hall
    have hc : (pyStrip t).toList.contains '-' = true := by
      rw [hst, htl]
      exact List.elem_iff.mpr (List.mem_append.mpr (Or.inr (List.mem_cons_self _ _)))
    have hres := normalize_zip_token_of_hyphen t hc
    rw [hst] at hres
    exact hres
  · -- first-five-digits branch: t is exactly five digits
    have hts : t = String.mk ((digitChars (pyStrip s)).take 5) := (Option.some.inj h).symm
    have htl : t.toList = (digitChars (pyStrip s)).take 5 := by rw [hts]; rfl
    have hdig : ∀ x ∈ t.toList, x.isDigit = true := by
      intro x hx
      rw [htl] at hx
      exact mem_digitChars_isDigit (List.take_subset _ _ hx)
    have hst : pyStrip t = t :=
      pyStrip_eq_self_of_all t (fun x hx => isPySpace_eq_false_of_isDigit (hdig x hx))
    have hlen : t.toList.length = 5 := by
      rw [htl, List.length_take]
      exact Nat.min_eq_left h4
    have hnh : (pyStrip t).toList.contains '-' = false := by
      rw [hst]
      by_contra hc
      rw [Bool.not_eq_false] at hc
      exact absurd (hdig '-' (List.elem_iff.mp hc)) (by decide)
    have hdc : digitChars (pyStrip t) = t.toList := by
      rw [hst]
      exact List.filter_eq_self.mpr hdig
    have hres := normalize_zip_token_of_five t hnh (by rw [hdc, hlen])
      (by rw [hdc, hlen]; omega)
    rw [hdc, List.take_of_length_le (le_of_eq hlen), mk_toList] at hres
    exact hres

/-- Claim C3: the Postal Token Normalizer returns the stripped input verbatim
when it contains a hyphen; else the 5+4 join of exactly nine extracted digits;
else the first five of at least five extracted digits; else no token.  The four
spec examples hold, and normalizing any produced token returns it unchanged. -/
theorem c3_postal_normalizer :
    (∀ s, (pyStrip s).toList.contains '-' = true →
      normalize_zip_token s = some (pyStrip s))
  ∧ (∀ s, (pyStrip s).toList.contains '-' = false →
      (digitChars (pyStrip s)).length = 9 →
      normalize_zip_token s =
        some (String.mk ((digitChars (pyStrip s)).take 5 ++
          '-' :: (digitChars (pyStrip s)).drop 5)))
  ∧ (∀ s, (pyStrip s).toList.contains '-' = false →
      5 ≤ (digitChars (pyStrip s)).length → (digitChars (pyStrip s)).length ≠ 9 →
      normalize_zip_token s = some (String.mk ((digitChars (pyStrip s)).take 5)))
  ∧ (∀ s, (pyStrip s).toList.contains '-' = false →
      (digitChars (pyStrip s)).length < 5 →
      normalize_zip_token s = none)
  ∧ normalize_zip_token "59044-9338" = some "59044-9338"
  ∧ normalize_zip_token "590449338" = some "59044-9338"
  ∧ normalize_zip_token "59044" = some "59044"
  ∧ normalize_zip_token "abc" = none
  ∧ (∀ s t, normalize_zip_token s = some t → normalize_zip_token t = some t) :=
  ⟨normalize_zip_token_of_hyphen, normalize_zip_token_of_nine,
   normalize_zip_token_of_five, normalize_zip_token_of_small,
   by decide, by decide, by decide, by decide,
   fun _ _ h => normalize_zip_token_idem h⟩

/-- Witness for C3: the conditional clauses instantiated at concrete inputs. -/
theorem c3_postal_normalizer_witness :
    ((pyStrip "59044-9338").toList.contains '-' = true ∧
      normalize_zip_token "59044-9338" = some (pyStrip "59044-9338"))
  ∧ ((pyStrip "590449338").toList.contains '-' = false ∧
      (digitChars (pyStrip "590449338")).length = 9)
  ∧ ((pyStrip "1234567").toList.contains '-' = false ∧
      normalize_zip_token "1234567" = some (String.mk ((digitChars (pyStrip "1234567")).take 5)))
  ∧ normalize_zip_token "12 34" = none
  ∧ normalize_zip_token "59044" = some "59044" :=
  ⟨⟨by decide, c3_postal_normalizer.1 "59044-9338" (by decide)⟩,
   ⟨by decide, by decide⟩,
   ⟨by decide, (c3_postal_normalizer.2.2.1 "1234567" (by decide) (by decide) (by decide))⟩,
   c3_postal_normalizer.2.2.2.1 "12 34" (by decide) (by decide),
   c3_postal_normalizer.2.2.2.2.2.2.1⟩

/-- Counterexample to claim C8: the normalizer trusts any hyphenated input
verbatim, so it can return a token with non-digit characters. -/
theorem c8_token_invariant_cex :
    normalize_zip_token "abc-def" = some "abc-def" ∧ isValidToken "abc-def" = false := by
  constructor <;> decide

/-- Amended C8: when the stripped input contains no hyphen, every token the
normalizer produces is a valid 5-digit or 5+4 PostalToken. -/
theorem c8_token_invariant (s t : String)
    (hh : (pyStrip s).toList.contains '-' = false)
    (h : normalize_zip_token s = some t) : isValidToken t = true := by
  simp only [normalize_zip_token] at h
  split_ifs at h with h1 h2 h3 h4
  · rw [h2] at hh; exact absurd hh (by decide)
  · have hts : t = String.mk ((digitChars (pyStrip s)).take 5 ++
        '-' :: (digitChars (pyStrip s)).drop 5) := (Option.some.inj h).symm
    have htl : t.toList = (digitChars (pyStrip s)).take 5 ++
        '-' :: (digitChars (pyStrip s)).drop 5 := by rw [hts]; rfl
    have hlt : ((digitChars (pyStrip s)).take 5).length = 5 := by
      rw [List.length_take, h3]
      exact Nat.min_eq_left (by omega)
    have hld : ((digitChars (pyStrip s)).drop 5).length = 4 := by
      rw [List.length_drop, h3]
    simp only [isValidToken, htl, Bool.or_eq_true, Bool.and_eq_true, beq_iff_eq]
    refine Or.inr ⟨⟨⟨?_, ?_⟩, ?_⟩, ?_⟩
    · rw [List.length_append, List.length_cons, hlt, hld]
    · rw [List.take_left' hlt]
      exact List.all_eq_true.mpr
        (fun x hx => mem_digitChars_isDigit (List.take_subset _ _ hx))
    · rw [List.getElem?_append_right (le_of_eq hlt), hlt]
      simp
    · rw [List.append_cons, List.drop_left'
        (by rw [List.length_append, hlt]; rfl)]
      exact List.all_eq_true.mpr
        (fun x hx => mem_digitChars_isDigit (List.drop_subset _ _ hx))
  · have hts : t = String.mk ((digitChars (pyStrip s)).take 5) := (Option.some.inj h).symm
    have htl : t.toList = (digitChars (pyStrip s)).take 5 := by rw [hts]; rfl
    simp only [isValidToken, htl, Bool.or_eq_true, Bool.and_eq_true, beq_iff_eq]
    refine Or.inl ⟨?_, ?_⟩
    · rw [List.length_take]
      exact Nat.min_eq_left h4
    · exact List.all_eq_true.mpr
        (fun x hx => mem_digitChars_isDigit (List.take_subset _ _ hx))

/-- Witness for the amended C8 at concrete hyphen-free inputs. -/
theorem c8_token_invariant_witness :
    ((pyStrip "590449338").toList.contains '-' = false ∧
      isValidToken "59044-9338" = true)
  ∧ ((pyStrip " 59044 ").toList.contains '-' = false ∧ isValidToken "59044" = true) :=
  ⟨⟨by decide, c8_token_invariant "590449338" "59044-9338" (by decide) (by decide)⟩,
   ⟨by decide, c8_token_invariant " 59044 " "59044" (by decide) (by decide)⟩⟩

/-- Numeric value of a digit string. -/
def digitsVal (ds : List Char) : ℕ := ds.foldl (fun a c => 10 * a + (c.toNat - 48)) 0

/-- Syntactic decomposition of a finite Python float literal: sign, integer
digits value, fraction digits value and count, and decimal exponent. -/
structure FloatParts where
  neg : Bool
  intVal : ℕ
  fracVal : ℕ
  fracLen : ℕ
  exp : ℤ
deriving DecidableEq

/-- Parse the shape of a finite Python `float` literal: optional surrounding
whitespace, optional sign, digits with optional fraction, optional exponent.
Returns `none` exactly when Python `float(s)` raises `ValueError` (non-finite
literals such as `inf`/`nan` are outside the rational model). -/
def floatParts? (s : String) : Option FloatParts :=
  let l0 := s.toList.dropWhile isPySpace
  let sl : Bool × List Char :=
    match l0 with
    | '+' :: t => (false, t)
    | '-' :: t => (true, t)
    | _ => (false, l0)
  let ds := sl.2.takeWhile Char.isDigit
  let l2 := sl.2.dropWhile Char.isDigit
  let fl : List Char × List Char :=
    match l2 with
    | '.' :: t => (t.takeWhile Char.isDigit, t.dropWhile Char.isDigit)
    | _ => ([], l2)
  if ds.isEmpty && fl.1.isEmpty then none
  else
    match fl.2 with
    | [] => some ⟨sl.1, digitsVal ds, digitsVal fl.1, fl.1.length, 0⟩
    | c :: t =>
      if c = 'e' ∨ c = 'E' then
        let et : ℤ × List Char :=
          match t with
          | '+' :: u => (1, u)
          | '-' :: u => (-1, u)
          | _ => (1, t)
        let eds := et.2.takeWhile Char.isDigit
        if eds.isEmpty then none
        else if ((et.2.dropWhile Char.isDigit).dropWhile isPySpace).isEmpty then
          some ⟨sl.1, digitsVal ds, digitsVal fl.1, fl.1.length, et.1 * (digitsVal eds : ℤ)⟩
        else none
      else if (fl.2.dropWhile isPySpace).isEmpty then
        some ⟨sl.1, digitsVal ds, digitsVal fl.1, fl.1.length, 0⟩
      else none

/-- Numeric value of a parsed float literal. -/
def partsVal (p : FloatParts) : ℚ :=
  (if p.neg then -1 else 1) * ((p.intVal : ℚ) + (p.fracVal : ℚ) / 10 ^ p.fracLen) * 10 ^ p.exp

/-- Model of Python `float(s)` on strings (finite literals). -/
def pyFloat? (s : String) : Option ℚ := (floatParts? s).map partsVal

/-- Model of Python `float(x)` where `x` may be `None` (then `float` raises). -/
def pyFloatOpt? : Option String → Option ℚ
  | none => none
  | some s => pyFloat? s

/-- The cleaning pipeline of `parse_amount`:
`str(s).strip().replace(chr(36), two-char-empty).replace(comma, empty)`. -/
def stripAmountChars (s : String) : String :=
  String.mk (((pyStrip s).toList.filter (fun c => !(c == '$'))).filter (fun c => !(c == ',')))

/-- Embedding of `parse_amount` (make_half_aggregated.py lines 33-42; the same
function appears in calculate_totals.py lines 16-25 and
map-to-municipality.py lines 47-57): `None` and empty cleaned text give `0.0`,
parse failure gives `0.0`, otherwise the parsed value. -/
def parse_amount : Option String → ℚ
  | none => 0
  | some s =>
    let s2 := stripAmountChars s
    if s2 = "" then 0
    else
      match pyFloat? s2 with
      | some q => q
      | none => 0

/-- A CSV row as read by `csv.DictReader`: field names mapped to values, in
column order. -/
abbrev Row := List (String × String)

/-- Python `d.get(k)` on a dict modelled as an insertion-ordered association
list: the value at the first matching key. -/
def dGet {α : Type} : List (String × α) → String → Option α
  | [], _ => none
  | p :: t, k => if p.1 == k then some p.2 else dGet t k

/-- Python `k in d`. -/
def dHas {α : Type} : List (String × α) → String → Bool
  | [], _ => false
  | p :: t, k => p.1 == k || dHas t k

/-- Python `d[k] = v`: overwrite the value at the key in place if present,
else append the binding at the end. -/
def dIns {α : Type} : List (String × α) → String → α → List (String × α)
  | [], k, v => [(k, v)]
  | p :: t, k, v => if p.1 == k then (k, v) :: t else p :: dIns t k v

/-- Python `row.get(k)`. -/
def rowGet (row : Row) (k : String) : Option String := dGet row k

/-- Membership of `k.lower()` in the alias pair `(amnt, amount)`. -/
def isAmountKey (k : String) : Bool := pyLower k == "amnt" || pyLower k == "amount"

/-- Bool-valued infix test on character lists. -/
def listHasInfix (needle hay : List Char) : Bool :=
  hay.tails.any (fun t => needle.isPrefixOf t)

/-- Python test `am-substring in k.lower()`. -/
def containsAm (k : String) : Bool := listHasInfix ['a', 'm'] (pyLower k).toList

/-- Embedding of `get_amount_from_row` (calculate_totals.py lines 27-39 and,
line for line, map-to-municipality.py lines 60-72): first key whose lowering
is `amnt`/`amount`; else first non-empty key containing the letters `am`;
else `0.0`. -/
def get_amount_from_row (row : Row) : ℚ :=
  match row.find? (fun p => !(p.1 == "") && isAmountKey p.1) with
  | some p => parse_amount (rowGet row p.1)
  | none =>
    match row.find? (fun p => !(p.1 == "") && containsAm p.1) with
    | some p => parse_amount (rowGet row p.1)
    | none => 0
theorem stripAmountChars_of_all_space (s : String)
    (h : ∀ c ∈ s.toList, isPySpace c = true) : stripAmountChars s = "" := by
  have hd : s.toList.dropWhile isPySpace = [] := List.dropWhile_eq_nil_iff.mpr h
  have hstrip : (pyStrip s).toList = [] := by
    show stripChars s.toList = []
    unfold stripChars
    rw [hd]
    rfl
  unfold stripAmountChars
  rw [hstrip]
  rfl

/-- Claim C7: the Amount Normalizer is total: `None`, empty and whitespace
inputs give `0.0`, text whose cleaned form fails float parsing gives `0.0`,
parseable currency text gives its numeric value, and the two spec examples
hold. -/
theorem c7_amount_normalizer :
    parse_amount none = 0
  ∧ (∀ s, (∀ c ∈ s.toList, isPySpace c = true) → parse_amount (some s) = 0)
  ∧ (∀ s, pyFloat? (stripAmountChars s) = none → parse_amount (some s) = 0)
  ∧ (∀ s q, pyFloat? (stripAmountChars s) = some q → parse_amount (some s) = q)
  ∧ parse_amount (some "$1,234.50") = 1234.50
  ∧ parse_amount (some "abc") = 0 := by
  refine ⟨rfl, ?_, ?_, ?_, ?_, ?_⟩
  · intro s hs
    simp only [parse_amount]
    rw [if_pos (stripAmountChars_of_all_space s hs)]
  · intro s h
    simp only [parse_amount]
    by_cases he : stripAmountChars s = ""
    · rw [if_pos he]
    · rw [if_neg he, h]
  · intro s q h
    have hne : stripAmountChars s ≠ "" := by
      intro he
      rw [he, (by decide : pyFloat? "" = none)] at h
      exact absurd h (by simp)
    simp only [parse_amount]
    rw [if_neg hne, h]
  · have h1 : stripAmountChars "$1,234.50" = "1234.50" := by decide
    have h2 : floatParts? "1234.50" = some ⟨false, 1234, 50, 2, 0⟩ := by decide
    simp only [parse_amount, h1, pyFloat?, h2, Option.map_some]
    rw [if_neg (by decide)]
    norm_num [partsVal]
  · have h1 : stripAmountChars "abc" = "abc" := by decide
    have h2 : floatParts? "abc" = none := by decide
    simp only [parse_amount, h1, pyFloat?, h2]
    rw [if_neg (by decide)]
    rfl

/-- Witness for C7: the conditional clauses at concrete inputs. -/
theorem c7_amount_normalizer_witness :
    ((∀ c ∈ ("  " : String).toList, isPySpace c = true) ∧ parse_amount (some "  ") = 0)
  ∧ (pyFloat? (stripAmountChars "n/a") = none ∧ parse_amount (some "n/a") = 0)
  ∧ (pyFloat? (stripAmountChars "$7.50") = some (15/2) ∧ parse_amount (some "$7.50") = 15/2) := by
  have hp : pyFloat? (stripAmountChars "$7.50") = some (15/2) := by
    have h1 : stripAmountChars "$7.50" = "7.50" := by decide
    have h2 : floatParts? "7.50" = some ⟨false, 7, 50, 2, 0⟩ := by decide
    rw [h1]
    simp only [pyFloat?, h2, Option.map_some]
    norm_num [partsVal]
  have hn : pyFloat? (stripAmountChars "n/a") = none := by
    have h1 : stripAmountChars "n/a" = "n/a" := by decide
    have h2 : floatParts? "n/a" = none := by decide
    rw [h1]
    simp only [pyFloat?, h2]
    rfl
  exact ⟨⟨by decide, c7_amount_normalizer.2.1 "  " (by decide)⟩,
    ⟨hn, c7_amount_normalizer.2.2.1 "n/a" hn⟩,
    ⟨hp, c7_amount_normalizer.2.2.2.1 "$7.50" (15/2) hp⟩⟩

/-- Claim C9 (implicit): with no exact `AMNT`/`AMOUNT` field, the amount
resolver takes the first field, in key order, whose name contains the letters
`am` (case-insensitively) - even a non-monetary field such as
`NAME OF CONTRIBUTOR` - and parses its value; only when no field name contains
`am` does it return `0.0`. -/
theorem c9_amount_field_fallback :
    (∀ row : Row, (∀ p ∈ row, isAmountKey p.1 = false) →
      ∀ q : String × String,
        row.find? (fun r => !(r.1 == "") && containsAm r.1) = some q →
        get_amount_from_row row = parse_amount (rowGet row q.1))
  ∧ (∀ row : Row, (∀ p ∈ row, isAmountKey p.1 = false) →
      (∀ p ∈ row, containsAm p.1 = false) →
      get_amount_from_row row = 0)
  ∧ get_amount_from_row [("NAME OF CONTRIBUTOR", "SMITH"), ("AMT", "50")] = 0
  ∧ get_amount_from_row [("CITY", "HELENA"), ("AMT", "50")] = 50 := by
  refine ⟨?_, ?_, ?_, ?_⟩
  · intro row hno q hq
    have h1 : row.find? (fun r => !(r.1 == "") && isAmountKey r.1) = none :=
      List.find?_eq_none.mpr (fun x hx => by simp [hno x hx])
    simp only [get_amount_from_row, h1, hq]
  · intro row hno hnc
    have h1 : row.find? (fun r => !(r.1 == "") && isAmountKey r.1) = none :=
      List.find?_eq_none.mpr (fun x hx => by simp [hno x hx])
    have h2 : row.find? (fun r => !(r.1 == "") && containsAm r.1) = none :=
      List.find?_eq_none.mpr (fun x hx => by simp [hnc x hx])
    simp only [get_amount_from_row, h1, h2]
  · have h1 : ([("NAME OF CONTRIBUTOR", "SMITH"), ("AMT", "50")] : Row).find?
        (fun r => !(r.1 == "") && isAmountKey r.1) = none := by decide
    have h2 : ([("NAME OF CONTRIBUTOR", "SMITH"), ("AMT", "50")] : Row).find?
        (fun r => !(r.1 == "") && containsAm r.1) =
        some ("NAME OF CONTRIBUTOR", "SMITH") := by decide
    have h3 : rowGet [("NAME OF CONTRIBUTOR", "SMITH"), ("AMT", "50")]
        "NAME OF CONTRIBUTOR" = some "SMITH" := by decide
    simp only [get_amount_from_row, h1, h2, h3]
    have h4 : stripAmountChars "SMITH" = "SMITH" := by decide
    have h5 : floatParts? "SMITH" = none := by decide
    simp only [parse_amount, h4, pyFloat?, h5]
    rw [if_neg (by decide)]
    rfl
  · have h1 : ([("CITY", "HELENA"), ("AMT", "50")] : Row).find?
        (fun r => !(r.1 == "") && isAmountKey r.1) = none := by decide
    have h2 : ([("CITY", "HELENA"), ("AMT", "50")] : Row).find?
        (fun r => !(r.1 == "") && containsAm r.1) = some ("AMT", "50") := by decide
    have h3 : rowGet [("CITY", "HELENA"), ("AMT", "50")] "AMT" = some "50" := by decide
    simp only [get_amount_from_row, h1, h2, h3]
    have h4 : stripAmountChars "50" = "50" := by decide
    have h5 : floatParts? "50" = some ⟨false, 50, 0, 0, 0⟩ := by decide
    simp only [parse_amount, h4, pyFloat?, h5, Option.map_some]
    rw [if_neg (by decide)]
    norm_num [partsVal]

/-- Witness for C9 at a concrete row exercising both conditional clauses. -/
theorem c9_amount_field_fallback_witness :
    ((∀ p ∈ ([("NAME OF CONTRIBUTOR", "SMITH"), ("AMT", "50")] : Row),
        isAmountKey p.1 = false)
      ∧ get_amount_from_row [("NAME OF CONTRIBUTOR", "SMITH"), ("AMT", "50")] =
          parse_amount (rowGet [("NAME OF CONTRIBUTOR", "SMITH"), ("AMT", "50")]
            "NAME OF CONTRIBUTOR"))
  ∧ ((∀ p ∈ ([("CITY", "HELENA"), ("ZIP", "59601")] : Row), containsAm p.1 = false)
      ∧ get_amount_from_row [("CITY", "HELENA"), ("ZIP", "59601")] = 0) :=
  ⟨⟨by decide,
    c9_amount_field_fallback.1 [("NAME OF CONTRIBUTOR", "SMITH"), ("AMT", "50")]
      (by decide) ("NAME OF CONTRIBUTOR", "SMITH") (by decide)⟩,
   ⟨by decide,
    c9_amount_field_fallback.2.1 [("CITY", "HELENA"), ("ZIP", "59601")]
      (by decide) (by decide)⟩⟩

/-- Coordinates are stored as `[lon, lat]` pairs. -/
abbrev Coord := ℚ × ℚ

theorem dGet_dIns_self {α : Type} (m : List (String × α)) (k : String) (v : α) :
    dGet (dIns m k v) k = some v := by
  induction m with
  | nil => simp [dIns, dGet]
  | cons p t ih =>
    by_cases hp : (p.1 == k) = true
    · simp [dIns, dGet, hp]
    · simp only [dIns, dGet, hp, if_neg, Bool.false_eq_true, if_false]
      exact ih

theorem dGet_dIns_ne {α : Type} (m : List (String × α)) (k k' : String) (v : α)
    (h : k' ≠ k) : dGet (dIns m k v) k' = dGet m k' := by
  have hkk : (k == k') = false := by
    simp only [beq_eq_false_iff_ne, ne_eq]
    exact fun hc => h hc.symm
  induction m with
  | nil => simp [dIns, dGet, hkk]
  | cons p t ih =>
    by_cases hp : (p.1 == k) = true
    · have hp1 : p.1 = k := by simpa using hp
      simp [dIns, dGet, hp, hkk, hp1]
    · simp only [dIns, dGet, hp, Bool.false_eq_true, if_false]
      by_cases hq : (p.1 == k') = true
      · simp [dGet, hq]
      · simp only [dGet, hq, Bool.false_eq_true, if_false]
        exact ih

theorem dHas_dIns_self {α : Type} (m : List (String × α)) (k : String) (v : α) :
    dHas (dIns m k v) k = true := by
  induction m with
  | nil => simp [dIns, dHas]
  | cons p t ih =>
    by_cases hp : (p.1 == k) = true
    · simp [dIns, dHas, hp]
    · simp only [dIns, dHas, hp, Bool.false_eq_true, if_false, Bool.or_eq_true]
      exact Or.inr ih

theorem dHas_dIns_of {α : Type} (m : List (String × α)) (k k' : String) (v : α)
    (h : dHas m k' = true) : dHas (dIns m k v) k' = true := by
  induction m with
  | nil => exact absurd h (by simp [dHas])
  | cons p t ih =>
    rcases (Bool.or_eq_true _ _).mp h with h1 | h1
    · by_cases hp : (p.1 == k) = true
      · have hp1 : p.1 = k := by simpa using hp
        have hk1 : p.1 = k' := by simpa using h1
        simp [dIns, dHas, hp, ← hp1, hk1]
      · simp [dIns, dHas, hp, h1]
    · by_cases hp : (p.1 == k) = true
      · simp [dIns, dHas, hp, h1]
      · simp [dIns, dHas, hp, ih h1]

theorem dHas_of_dGet_some {α : Type} {m : List (String × α)} {k : String} {c : α}
    (h : dGet m k = some c) : dHas m k = true := by
  induction m with
  | nil => exact absurd h (by simp [dGet])
  | cons p t ih =>
    by_cases hp : (p.1 == k) = true
    · simp [dHas, hp]
    · simp only [dGet, hp, Bool.false_eq_true, if_false] at h
      simp [dHas, hp, ih h]

/-- A reference ZIP row after column resolution: the raw postal text (already
defaulted with `or` to the empty string) and the raw latitude/longitude cell
values, which `row.get` may report as missing. -/
structure RefRow where
  rawZip : String
  latRaw : Option String
  lonRaw : Option String

/-- The inline token computation of `load_zip_map`
(make_half_aggregated.py, lines 77-86): strip; skip when empty; trust a
hyphenated value verbatim; split 9 digits 5+4; otherwise take the first five
digit characters, however few there are. -/
def tokenOfHalfLoad (raw : String) : Option String :=
  let r := pyStrip raw
  if r = "" then none
  else
    let ds := digitChars r
    if r.toList.contains '-' then some r
    else if ds.length = 9 then some (String.mk (ds.take 5 ++ '-' :: ds.drop 5))
    else some (String.mk (ds.take 5))

/-- The inline token computation of `load_zip_codes`
(map-to-municipality.py, lines 122-137): as above but rows with fewer than
five digits and no hyphen are skipped. -/
def tokenOfMuniLoad (raw : String) : Option String :=
  let r := pyStrip raw
  if r = "" then none
  else
    let ds := digitChars r
    if r.toList.contains '-' then some r
    else if ds.length = 9 then some (String.mk (ds.take 5 ++ '-' :: ds.drop 5))
    else if 5 ≤ ds.length then some (String.mk (ds.take 5))
    else none

/-- Python `full.split(hyphen)[0]`: the prefix before the first hyphen. -/
def beforeHyphen (t : String) : String :=
  String.mk (t.toList.takeWhile (fun c => !(c == '-')))

/-- One reference row applied to the ZIP index, shared shape of
`load_zip_map` (make_half_aggregated.py lines 77-95) and `load_zip_codes`
(map-to-municipality.py lines 122-147), parameterized by the script's token
computation: if the token exists and both coordinates parse as floats, store
`[lon, lat]` under the full token (overwriting), then under the 5-digit
prefix only if that key is absent; any failure leaves the index unchanged. -/
def loadZipStep (tok : String → Option String) (m : List (String × Coord))
    (row : RefRow) : List (String × Coord) :=
  match tok row.rawZip with
  | none => m
  | some full =>
    match pyFloatOpt? row.latRaw, pyFloatOpt? row.lonRaw with
    | some lat, some lon =>
      let m1 := dIns m full (lon, lat)
      let five := beforeHyphen full
      if dHas m1 five then m1 else dIns m1 five (lon, lat)
    | _, _ => m

/-- Embedding of the per-row action of `load_zip_map` (make_half_aggregated.py). -/
def loadHalfStep : List (String × Coord) → RefRow → List (String × Coord) :=
  loadZipStep tokenOfHalfLoad

/-- Embedding of the per-row action of `load_zip_codes` (map-to-municipality.py). -/
def loadMuniStep : List (String × Coord) → RefRow → List (String × Coord) :=
  loadZipStep tokenOfMuniLoad

/-- Embedding of `load_zip_map` (make_half_aggregated.py lines 45-97) over the
usable reference rows. -/
def load_zip_map (rows : List RefRow) : List (String × Coord) :=
  rows.foldl loadHalfStep []

/-- Embedding of `load_zip_codes` (map-to-municipality.py lines 79-149) over
the usable reference rows. -/
def load_zip_codes (rows : List RefRow) : List (String × Coord) :=
  rows.foldl loadMuniStep []

/-- Counterexample to claim C6: for a hyphen-free value with fewer than five
digits, make_half_aggregated's loader derives a (too short) token and stores
the row, where the Postal Token Normalizer yields no token. -/
theorem c6_load_token_equiv_cex :
    tokenOfHalfLoad "abc1" = some "1" ∧ normalize_zip_token "abc1" = none := by
  constructor <;> decide

/-- Amended C6: map-to-municipality's loader token computation equals the
Postal Token Normalizer everywhere; make_half_aggregated's agrees whenever the
stripped value is empty, contains a hyphen, or has at least five digits, but
on a non-empty hyphen-free value with fewer than five digits it produces the
bare digit string while the normalizer yields no token. -/
theorem c6_load_token_equiv :
    (∀ raw, tokenOfMuniLoad raw = normalize_zip_token raw)
  ∧ (∀ raw, pyStrip raw = "" ∨ (pyStrip raw).toList.contains '-' = true ∨
        5 ≤ (digitChars (pyStrip raw)).length →
      tokenOfHalfLoad raw = normalize_zip_token raw)
  ∧ (∀ raw, pyStrip raw ≠ "" → (pyStrip raw).toList.contains '-' = false →
      (digitChars (pyStrip raw)).length < 5 →
      tokenOfHalfLoad raw = some (String.mk (digitChars (pyStrip raw))) ∧
        normalize_zip_token raw = none) := by
  refine ⟨fun _ => rfl, ?_, ?_⟩
  · intro raw h
    by_cases hne : pyStrip raw = ""
    · simp [tokenOfHalfLoad, normalize_zip_token, hne]
    · by_cases hc : (pyStrip raw).toList.contains '-' = true
      · simp only [tokenOfHalfLoad, normalize_zip_token]
        rw [if_neg hne, if_neg hne, if_pos hc, if_pos hc]
      · have h5 : 5 ≤ (digitChars (pyStrip raw)).length := by
          rcases h with h | h | h
          · exact absurd h hne
          · exact absurd h hc
          · exact h
        by_cases h9 : (digitChars (pyStrip raw)).length = 9
        · simp only [tokenOfHalfLoad, normalize_zip_token]
          rw [if_neg hne, if_neg hne, if_neg hc, if_neg hc, if_pos h9, if_pos h9]
        · simp only [tokenOfHalfLoad, normalize_zip_token]
          rw [if_neg hne, if_neg hne, if_neg hc, if_neg hc, if_neg h9, if_neg h9,
            if_pos h5]
  · intro raw hne hcf h5
    have hc : ¬ ((pyStrip raw).toList.contains '-' = true) := by
      intro hc; rw [hc] at hcf; exact absurd hcf (by decide)
    have h9 : ¬ ((digitChars (pyStrip raw)).length = 9) := by omega
    constructor
    · simp only [tokenOfHalfLoad]
      rw [if_neg hne, if_neg hc, if_neg h9,
        List.take_of_length_le (by omega)]
    · exact normalize_zip_token_of_small raw hcf (by omega)

/-- Witness for the amended C6 at concrete inputs for both conditional clauses. -/
theorem c6_load_token_equiv_witness :
    ((pyStrip "59044-9338").toList.contains '-' = true ∧
      tokenOfHalfLoad "59044-9338" = normalize_zip_token "59044-9338")
  ∧ (pyStrip "abc1" ≠ "" ∧
      tokenOfHalfLoad "abc1" = some (String.mk (digitChars (pyStrip "abc1"))) ∧
      normalize_zip_token "abc1" = none) :=
  ⟨⟨by decide, c6_load_token_equiv.2.1 "59044-9338" (Or.inr (Or.inl (by decide)))⟩,
   ⟨by decide, c6_load_token_equiv.2.2 "abc1" (by decide) (by decide) (by decide)⟩⟩

theorem loadZipStep_of_badCoord (tok : String → Option String)
    (m : List (String × Coord)) (row : RefRow)
    (h : pyFloatOpt? row.latRaw = none ∨ pyFloatOpt? row.lonRaw = none) :
    loadZipStep tok m row = m := by
  unfold loadZipStep
  cases ht : tok row.rawZip with
  | none => rfl
  | some full =>
    cases ha : pyFloatOpt? row.latRaw with
    | none => cases hb : pyFloatOpt? row.lonRaw <;> rfl
    | some lat =>
      cases hb : pyFloatOpt? row.lonRaw with
      | none => rfl
      | some lon =>
        rcases h with h | h
        · rw [ha] at h; exact absurd h (by simp)
        · rw [hb] at h; exact absurd h (by simp)

/-- Claim C10 (implicit): a reference row whose latitude or longitude fails
float parsing is skipped atomically - neither the full-token entry nor the
5-digit parent entry is inserted - and the remaining rows still load. -/
theorem c10_load_row_atomic :
    (∀ (m : List (String × Coord)) (row : RefRow),
      pyFloatOpt? row.latRaw = none ∨ pyFloatOpt? row.lonRaw = none →
      loadHalfStep m row = m ∧ loadMuniStep m row = m)
  ∧ (∀ (m : List (String × Coord)) (row : RefRow) (rows : List RefRow),
      pyFloatOpt? row.latRaw = none ∨ pyFloatOpt? row.lonRaw = none →
      (row :: rows).foldl loadHalfStep m = rows.foldl loadHalfStep m ∧
      (row :: rows).foldl loadMuniStep m = rows.foldl loadMuniStep m) := by
  have hstep : ∀ tok (m : List (String × Coord)) (row : RefRow),
      pyFloatOpt? row.latRaw = none ∨ pyFloatOpt? row.lonRaw = none →
      loadZipStep tok m row = m := loadZipStep_of_badCoord
  refine ⟨fun m row h => ⟨hstep _ m row h, hstep _ m row h⟩, fun m row rows h => ?_⟩
  have h1 : loadHalfStep m row = m := hstep _ m row h
  have h2 : loadMuniStep m row = m := hstep _ m row h
  constructor
  · rw [List.foldl_cons, h1]
  · rw [List.foldl_cons, h2]

/-- Witness for C10: a concrete malformed-latitude row leaves a concrete index
unchanged. -/
theorem c10_load_row_atomic_witness :
    (pyFloatOpt? (RefRow.mk "59044" (some "north") (some "2")).latRaw = none ∨
      pyFloatOpt? (RefRow.mk "59044" (some "north") (some "2")).lonRaw = none)
  ∧ loadHalfStep [("11111", ((5 : ℚ), 6))] (RefRow.mk "59044" (some "north") (some "2")) =
      [("11111", ((5 : ℚ), 6))]
  ∧ loadMuniStep [("11111", ((5 : ℚ), 6))] (RefRow.mk "59044" (some "north") (some "2")) =
      [("11111", ((5 : ℚ), 6))] := by
  have h : pyFloatOpt? (RefRow.mk "59044" (some "north") (some "2")).latRaw = none ∨
      pyFloatOpt? (RefRow.mk "59044" (some "north") (some "2")).lonRaw = none :=
    Or.inl (by decide)
  obtain ⟨h1, h2⟩ := c10_load_row_atomic.1 [("11111", ((5 : ℚ), 6))]
    (RefRow.mk "59044" (some "north") (some "2")) h
  exact ⟨h, h1, h2⟩

theorem loadZipStep_preserve (tok : String → Option String)
    (m : List (String × Coord)) (row : RefRow) (k : String) (c : Coord)
    (hg : dGet m k = some c) (hne : tok row.rawZip ≠ some k) :
    dGet (loadZipStep tok m row) k = some c := by
  unfold loadZipStep
  cases ht : tok row.rawZip with
  | none => exact hg
  | some full =>
    have hkf : k ≠ full := fun he => hne (by rw [ht, he])
    cases ha : pyFloatOpt? row.latRaw with
    | none => cases hb : pyFloatOpt? row.lonRaw <;> exact hg
    | some lat =>
      cases hb : pyFloatOpt? row.lonRaw with
      | none => exact hg
      | some lon =>
        show dGet (if dHas (dIns m full (lon, lat)) (beforeHyphen full) = true
          then dIns m full (lon, lat)
          else dIns (dIns m full (lon, lat)) (beforeHyphen full) (lon, lat)) k = some c
        have h1 : dGet (dIns m full (lon, lat)) k = some c := by
          rw [dGet_dIns_ne m full k _ hkf]
          exact hg
        by_cases h5 : dHas (dIns m full (lon, lat)) (beforeHyphen full) = true
        · rw [if_pos h5]
          exact h1
        · rw [if_neg h5]
          have hkb : k ≠ beforeHyphen full := by
            intro he
            exact h5 (by rw [← he]; exact dHas_of_dGet_some h1)
          rw [dGet_dIns_ne _ _ k _ hkb]
          exact h1

theorem loadZipStep_overwrite (tok : String → Option String)
    (m : List (String × Coord)) (row : RefRow) (k : String) (lat lon : ℚ)
    (ht : tok row.rawZip = some k) (ha : pyFloatOpt? row.latRaw = some lat)
    (hb : pyFloatOpt? row.lonRaw = some lon) :
    dGet (loadZipStep tok m row) k = some (lon, lat) := by
  unfold loadZipStep
  rw [ht]
  show dGet (match pyFloatOpt? row.latRaw, pyFloatOpt? row.lonRaw with
    | some lat, some lon =>
      let m1 := dIns m k (lon, lat)
      let five := beforeHyphen k
      if dHas m1 five then m1 else dIns m1 five (lon, lat)
    | _, _ => m) k = some (lon, lat)
  rw [ha, hb]
  show dGet (if dHas (dIns m k (lon, lat)) (beforeHyphen k) = true
    then dIns m k (lon, lat)
    else dIns (dIns m k (lon, lat)) (beforeHyphen k) (lon, lat)) k = some (lon, lat)
  by_cases h5 : dHas (dIns m k (lon, lat)) (beforeHyphen k) = true
  · rw [if_pos h5]
    exact dGet_dIns_self m k (lon, lat)
  · rw [if_neg h5]
    have hkb : k ≠ beforeHyphen k := by
      intro he
      exact h5 (by rw [← he]; exact dHas_dIns_self m k (lon, lat))
    rw [dGet_dIns_ne _ _ k _ hkb]
    exact dGet_dIns_self m k (lon, lat)

theorem loadZip_fold_preserve (tok : String → Option String)
    (rows : List RefRow) (m : List (String × Coord)) (k : String) (c : Coord)
    (hg : dGet m k = some c)
    (hrows : ∀ row ∈ rows, tok row.rawZip ≠ some k) :
    dGet (rows.foldl (loadZipStep tok) m) k = some c := by
  induction rows generalizing m with
  | nil => exact hg
  | cons r rs ih =>
    rw [List.foldl_cons]
    exact ih _ (loadZipStep_preserve tok m r k c hg (hrows r (List.mem_cons_self r rs)))
      (fun row hrow => hrows row (List.mem_cons_of_mem _ hrow))

theorem pyFloatOpt_eval (s : String) (p : FloatParts) (q : ℚ)
    (h : floatParts? s = some p) (hv : partsVal p = q) :
    pyFloatOpt? (some s) = some q := by
  simp [pyFloatOpt?, pyFloat?, h, hv]

/-- Counterexample to claim C5: a later reference row with the same full token
overwrites the stored coordinate (last-seen-wins for the full-token insert),
in both scripts; hence first-seen-wins fails as a universal statement. -/
theorem c5_first_seen_cex :
    dGet (load_zip_map [RefRow.mk "12345-6789" (some "1") (some "2")]) "12345-6789" =
      some ((2 : ℚ), (1 : ℚ))
  ∧ dGet (load_zip_map [RefRow.mk "12345-6789" (some "1") (some "2"),
      RefRow.mk "12345-6789" (some "3") (some "4")]) "12345-6789" =
      some ((4 : ℚ), (3 : ℚ))
  ∧ ((2 : ℚ), (1 : ℚ)) ≠ ((4 : ℚ), (3 : ℚ))
  ∧ ¬ (∀ (rows₁ rows₂ : List RefRow) (k : String) (c : Coord),
      dGet (load_zip_map rows₁) k = some c →
      dGet (load_zip_map (rows₁ ++ rows₂)) k = some c)
  ∧ dGet (load_zip_codes [RefRow.mk "12345-6789" (some "1") (some "2"),
      RefRow.mk "12345-6789" (some "3") (some "4")]) "12345-6789" =
      some ((4 : ℚ), (3 : ℚ)) := by
  have hv1 : pyFloatOpt? (some "1") = some 1 := pyFloatOpt_eval "1" ⟨false, 1, 0, 0, 0⟩ 1 (by decide) (by norm_num [partsVal])
  have hv2 : pyFloatOpt? (some "2") = some 2 :=
    pyFloatOpt_eval "2" ⟨false, 2, 0, 0, 0⟩ 2 (by decide) (by norm_num [partsVal])
  have hv3 : pyFloatOpt? (some "3") = some 3 :=
    pyFloatOpt_eval "3" ⟨false, 3, 0, 0, 0⟩ 3 (by decide) (by norm_num [partsVal])
  have hv4 : pyFloatOpt? (some "4") = some 4 :=
    pyFloatOpt_eval "4" ⟨false, 4, 0, 0, 0⟩ 4 (by decide) (by norm_num [partsVal])
  have htok : tokenOfHalfLoad "12345-6789" = some "12345-6789" := by decide
  have htokm : tokenOfMuniLoad "12345-6789" = some "12345-6789" := by decide
  have e1 : dGet (load_zip_map [RefRow.mk "12345-6789" (some "1") (some "2")])
      "12345-6789" = some ((2 : ℚ), (1 : ℚ)) :=
    loadZipStep_overwrite tokenOfHalfLoad []
      (RefRow.mk "12345-6789" (some "1") (some "2")) "12345-6789" 1 2 htok hv1 hv2
  have e2 : dGet (load_zip_map [RefRow.mk "12345-6789" (some "1") (some "2"),
      RefRow.mk "12345-6789" (some "3") (some "4")]) "12345-6789" =
      some ((4 : ℚ), (3 : ℚ)) :=
    loadZipStep_overwrite tokenOfHalfLoad
      (load_zip_map [RefRow.mk "12345-6789" (some "1") (some "2")])
      (RefRow.mk "12345-6789" (some "3") (some "4")) "12345-6789" 3 4 htok hv3 hv4
  have e3 : dGet (load_zip_codes [RefRow.mk "12345-6789" (some "1") (some "2"),
      RefRow.mk "12345-6789" (some "3") (some "4")]) "12345-6789" =
      some ((4 : ℚ), (3 : ℚ)) :=
    loadZipStep_overwrite tokenOfMuniLoad
      (load_zip_codes [RefRow.mk "12345-6789" (some "1") (some "2")])
      (RefRow.mk "12345-6789" (some "3") (some "4")) "12345-6789" 3 4 htokm hv3 hv4
  have hne : ((2 : ℚ), (1 : ℚ)) ≠ ((4 : ℚ), (3 : ℚ)) := by
    intro hc
    have := congrArg Prod.fst hc
    norm_num at this
  refine ⟨e1, e2, hne, ?_, e3⟩
  intro hall
  have := hall [RefRow.mk "12345-6789" (some "1") (some "2")]
    [RefRow.mk "12345-6789" (some "3") (some "4")] "12345-6789" ((2 : ℚ), (1 : ℚ)) e1
  rw [show ([RefRow.mk "12345-6789" (some "1") (some "2")] ++
      [RefRow.mk "12345-6789" (some "3") (some "4")]) =
      [RefRow.mk "12345-6789" (some "1") (some "2"),
       RefRow.mk "12345-6789" (some "3") (some "4")] from rfl, e2] at this
  exact hne (Option.some.inj this).symm

/-- Amended C5: a stored coordinate is changed by a later row only when that
row's own full token equals the key (the full-token insert is last-seen-wins);
rows whose token differs from the key - in particular rows that merely derive
the key as a 5-digit parent - never change it, in either script. -/
theorem c5_insertion_policy :
    (∀ (m : List (String × Coord)) (row : RefRow) (k : String) (c : Coord),
      dGet m k = some c → tokenOfHalfLoad row.rawZip ≠ some k →
      dGet (loadHalfStep m row) k = some c)
  ∧ (∀ (m : List (String × Coord)) (row : RefRow) (k : String) (lat lon : ℚ),
      tokenOfHalfLoad row.rawZip = some k →
      pyFloatOpt? row.latRaw = some lat → pyFloatOpt? row.lonRaw = some lon →
      dGet (loadHalfStep m row) k = some (lon, lat))
  ∧ (∀ (rows : List RefRow) (m : List (String × Coord)) (k : String) (c : Coord),
      dGet m k = some c → (∀ row ∈ rows, tokenOfHalfLoad row.rawZip ≠ some k) →
      dGet (rows.foldl loadHalfStep m) k = some c)
  ∧ (∀ (m : List (String × Coord)) (row : RefRow) (k : String) (c : Coord),
      dGet m k = some c → tokenOfMuniLoad row.rawZip ≠ some k →
      dGet (loadMuniStep m row) k = some c)
  ∧ (∀ (m : List (String × Coord)) (row : RefRow) (k : String) (lat lon : ℚ),
      tokenOfMuniLoad row.rawZip = some k →
      pyFloatOpt? row.latRaw = some lat → pyFloatOpt? row.lonRaw = some lon →
      dGet (loadMuniStep m row) k = some (lon, lat))
  ∧ (∀ (rows : List RefRow) (m : List (String × Coord)) (k : String) (c : Coord),
      dGet m k = some c → (∀ row ∈ rows, tokenOfMuniLoad row.rawZip ≠ some k) →
      dGet (rows.foldl loadMuniStep m) k = some c) :=
  ⟨fun m row k c hg hne => loadZipStep_preserve tokenOfHalfLoad m row k c hg hne,
   fun m row k lat lon ht ha hb => loadZipStep_overwrite tokenOfHalfLoad m row k lat lon ht ha hb,
   fun rows m k c hg hrows => loadZip_fold_preserve tokenOfHalfLoad rows m k c hg hrows,
   fun m row k c hg hne => loadZipStep_preserve tokenOfMuniLoad m row k c hg hne,
   fun m row k lat lon ht ha hb => loadZipStep_overwrite tokenOfMuniLoad m row k lat lon ht ha hb,
   fun rows m k c hg hrows => loadZip_fold_preserve tokenOfMuniLoad rows m k c hg hrows⟩

/-- Witness for the amended C5 at a concrete index and rows. -/
theorem c5_insertion_policy_witness :
    dGet (loadHalfStep [("59044", ((7 : ℚ), (8 : ℚ)))]
        (RefRow.mk "99999" (some "1") (some "2"))) "59044" = some ((7 : ℚ), (8 : ℚ))
  ∧ dGet (loadMuniStep [] (RefRow.mk "59044" (some "1") (some "2"))) "59044" =
      some ((2 : ℚ), (1 : ℚ)) := by
  have hv1 : pyFloatOpt? (some "1") = some 1 :=
    pyFloatOpt_eval "1" ⟨false, 1, 0, 0, 0⟩ 1 (by decide) (by norm_num [partsVal])
  have hv2 : pyFloatOpt? (some "2") = some 2 :=
    pyFloatOpt_eval "2" ⟨false, 2, 0, 0, 0⟩ 2 (by decide) (by norm_num [partsVal])
  exact ⟨c5_insertion_policy.1 [("59044", ((7 : ℚ), (8 : ℚ)))]
      (RefRow.mk "99999" (some "1") (some "2")) "59044" ((7 : ℚ), (8 : ℚ)) rfl (by decide),
    c5_insertion_policy.2.2.2.2.1 [] (RefRow.mk "59044" (some "1") (some "2"))
      "59044" 1 2 (by decide) hv1 hv2⟩

/-- Normalization applied to the CITY field: strip, then lower-case. -/
def normCity (s : String) : String := pyLower (pyStrip s)

/-- Modelled from the spec: the section 4.3 lookup contract
`resolve(postalToken, placeName)` - try the full postal token, if absent its
5-digit parent, if absent the place-name table, else unresolved. -/
def specResolve (zm mp : List (String × Coord)) (tok : Option String)
    (place : String) : Option Coord :=
  match tok with
  | some t =>
    match dGet zm t with
    | some c => some c
    | none =>
      match dGet zm (beforeHyphen t) with
      | some c => some c
      | none => dGet mp place
  | none => dGet mp place

/-- Embedding of the coordinate resolution of make_half_aggregated.py `main`
(lines 167-176): normalize the ZIP, look up only that token in the ZIP map,
then fall back to the municipality centroid of the (already normalized)
city; `none` means the record is dropped. -/
def resolveHalf (zm mp : List (String × Coord)) (zipRaw city : String) :
    Option Coord :=
  let zipCoords :=
    match normalize_zip_token zipRaw with
    | some tok => dGet zm tok
    | none => none
  match zipCoords with
  | some c => some c
  | none => dGet mp city

/-- The inline token computation of map-to-municipality.py `main`
(lines 174-186), attempted only when the raw ZIP text is truthy. -/
def tokenOfMuniMain (raw : String) : Option String :=
  if raw = "" then none
  else
    let r := pyStrip raw
    let ds := digitChars r
    if r.toList.contains '-' then some r
    else if ds.length = 9 then some (String.mk (ds.take 5 ++ '-' :: ds.drop 5))
    else if 5 ≤ ds.length then some (String.mk (ds.take 5))
    else none

/-- Embedding of the per-record coordinate resolution of
map-to-municipality.py `main` (lines 173-191): the full token first, then its
5-digit prefix, then the municipality table under the normalized city. -/
def resolveMuniRow (zm mp : List (String × Coord)) (zipRaw cityRaw : String) :
    Option Coord :=
  let zipCoords :=
    match tokenOfMuniMain zipRaw with
    | some ft =>
      match dGet zm ft with
      | some c => some c
      | none => dGet zm (beforeHyphen ft)
    | none => none
  match zipCoords with
  | some c => some c
  | none => dGet mp (normCity cityRaw)

/-- Counterexample to claim C1: in make_half_aggregated, a record whose exact
token misses the ZIP map is resolved from the place-name table even though the
5-digit parent token has a postal match - the parent step of the priority
chain is skipped. -/
theorem c1_priority_chain_cex :
    resolveHalf [("12345", ((1 : ℚ), 2))] [("helena", ((3 : ℚ), 4))]
      "12345-6789" "helena" = some ((3 : ℚ), 4)
  ∧ specResolve [("12345", ((1 : ℚ), 2))] [("helena", ((3 : ℚ), 4))]
      (normalize_zip_token "12345-6789") "helena" = some ((1 : ℚ), 2)
  ∧ resolveHalf [("12345", ((1 : ℚ), 2))] [("helena", ((3 : ℚ), 4))]
      "12345-6789" "helena" ≠
    specResolve [("12345", ((1 : ℚ), 2))] [("helena", ((3 : ℚ), 4))]
      (normalize_zip_token "12345-6789") "helena" := by
  have e1 : resolveHalf [("12345", ((1 : ℚ), 2))] [("helena", ((3 : ℚ), 4))]
      "12345-6789" "helena" = some ((3 : ℚ), 4) := rfl
  have e2 : specResolve [("12345", ((1 : ℚ), 2))] [("helena", ((3 : ℚ), 4))]
      (normalize_zip_token "12345-6789") "helena" = some ((1 : ℚ), 2) := rfl
  refine ⟨e1, e2, ?_⟩
  rw [e1, e2]
  intro hc
  have := congrArg Prod.fst (Option.some.inj hc)
  norm_num at this

/-- Amended C1: map-to-municipality resolves through the full chain
(full token, 5-digit parent, place name, unresolved), so a postal match always
beats a place-name match there; make_half_aggregated consults only the exact
normalized token before falling back to the place name - its postal-over-place
priority holds for the exact token, but the 5-digit parent of the record's
token is never consulted at resolution time. -/
theorem c1_priority_chain :
    (∀ (zm mp : List (String × Coord)) (zipRaw cityRaw : String),
      resolveMuniRow zm mp zipRaw cityRaw =
        specResolve zm mp (tokenOfMuniMain zipRaw) (normCity cityRaw))
  ∧ (∀ (zm mp : List (String × Coord)) (zipRaw city tok : String) (c : Coord),
      normalize_zip_token zipRaw = some tok → dGet zm tok = some c →
      resolveHalf zm mp zipRaw city = some c)
  ∧ (∀ (zm mp : List (String × Coord)) (zipRaw city tok : String),
      normalize_zip_token zipRaw = some tok → dGet zm tok = none →
      resolveHalf zm mp zipRaw city = dGet mp city)
  ∧ (∀ (zm mp : List (String × Coord)) (zipRaw city : String),
      normalize_zip_token zipRaw = none →
      resolveHalf zm mp zipRaw city = dGet mp city) := by
  refine ⟨?_, ?_, ?_, ?_⟩
  · intro zm mp zipRaw cityRaw
    unfold resolveMuniRow specResolve
    cases ht : tokenOfMuniMain zipRaw with
    | none => rfl
    | some ft =>
      cases h1 : dGet zm ft with
      | some c => simp only [h1]
      | none =>
        cases h2 : dGet zm (beforeHyphen ft) with
        | some c => simp only [h1, h2]
        | none => simp only [h1, h2]
  · intro zm mp zipRaw city tok c ht hc
    simp only [resolveHalf, ht, hc]
  · intro zm mp zipRaw city tok ht hc
    simp only [resolveHalf, ht, hc]
  · intro zm mp zipRaw city ht
    simp only [resolveHalf, ht]

/-- Witness for the amended C1 at concrete maps and records. -/
theorem c1_priority_chain_witness :
    resolveHalf [("59601", ((9 : ℚ), 9))] [("helena", ((3 : ℚ), 4))]
      "59601" "helena" = some ((9 : ℚ), 9)
  ∧ resolveHalf [("59601", ((9 : ℚ), 9))] [("helena", ((3 : ℚ), 4))]
      "11111" "helena" = dGet [("helena", ((3 : ℚ), 4))] "helena"
  ∧ resolveHalf [("59601", ((9 : ℚ), 9))] [("helena", ((3 : ℚ), 4))]
      "" "helena" = dGet [("helena", ((3 : ℚ), 4))] "helena" :=
  ⟨c1_priority_chain.2.1 [("59601", ((9 : ℚ), 9))] [("helena", ((3 : ℚ), 4))]
    "59601" "helena" "59601" ((9 : ℚ), 9) (by decide) rfl,
   c1_priority_chain.2.2.1 [("59601", ((9 : ℚ), 9))] [("helena", ((3 : ℚ), 4))]
    "11111" "helena" "11111" (by decide) (by decide),
   c1_priority_chain.2.2.2 [("59601", ((9 : ℚ), 9))] [("helena", ((3 : ℚ), 4))]
    "" "helena" (by decide)⟩

/-- Floor of a rational, computed on numerator and denominator. -/
def qFloor (q : ℚ) : ℤ := q.num.fdiv q.den

/-- Python `int(q)`: truncation toward zero. -/
def qTrunc (q : ℚ) : ℤ := if 0 ≤ q then qFloor q else -(qFloor (-q))

/-- Python `round(q)`: nearest integer, ties to the even integer. -/
def pyRound (q : ℚ) : ℤ :=
  if q - (qFloor q : ℚ) < 1/2 then qFloor q
  else if 1/2 < q - (qFloor q : ℚ) then qFloor q + 1
  else if 2 ∣ qFloor q then qFloor q else qFloor q + 1

theorem qFloor_eq_floor (q : ℚ) : qFloor q = ⌊q⌋ := by
  rw [Rat.floor_def]
  exact Int.fdiv_eq_ediv _ (Int.natCast_nonneg _)

theorem pyRound_eq_of_near (q : ℚ) (n : ℤ) (h : |q - (n : ℚ)| < 1/2) :
    pyRound q = n := by
  rw [abs_lt] at h
  obtain ⟨h1, h2⟩ := h
  unfold pyRound
  by_cases hn : (n : ℚ) ≤ q
  · have hfl : ⌊q⌋ = n := by
      rw [Int.floor_eq_iff]
      refine ⟨hn, ?_⟩
      linarith
    rw [qFloor_eq_floor, hfl, if_pos (by linarith)]
  · push_neg at hn
    have hfl : ⌊q⌋ = n - 1 := by
      rw [Int.floor_eq_iff]
      constructor
      · push_cast; linarith
      · push_cast; linarith
    rw [qFloor_eq_floor, hfl]
    have hgt : 1/2 < q - ((n - 1 : ℤ) : ℚ) := by push_cast; linarith
    rw [if_neg (by linarith), if_pos hgt]
    omega

theorem pyRound_intCast (n : ℤ) : pyRound ((n : ℚ)) = n :=
  pyRound_eq_of_near _ n (by simp)

/-- The tolerance `1e-9` of the display-formatting rule. -/
def tolC4 : ℚ := 1 / 10 ^ 9

theorem pyRound_eq_qTrunc (q : ℚ) (h : |q - (qTrunc q : ℚ)| < tolC4) :
    pyRound q = qTrunc q :=
  pyRound_eq_of_near q _ (lt_trans h (by norm_num [tolC4]))

/-- Smallest power of ten divisible by `d`, when one exists up to `d`. -/
def decExp? (d : ℕ) : Option ℕ :=
  (List.range (d + 1)).find? (fun k => 10 ^ k % d == 0)

/-- Left-pad a digit string with zeros to the given width. -/
def padZeros (s : String) (k : ℕ) : String :=
  String.mk (List.replicate (k - s.toList.length) '0') ++ s

/-- Python `str(float)` for nonnegative values with terminating decimal
expansion (an integral float renders with a trailing `.0`); non-terminating
rationals cannot arise from float values and get a fraction fallback. -/
def decReprNN (q : ℚ) : String :=
  match decExp? q.den with
  | some k =>
    if k = 0 then toString q.num ++ ".0"
    else
      let m := q.num.natAbs * 10 ^ k / q.den
      toString (m / 10 ^ k) ++ "." ++ padZeros (toString (m % 10 ^ k)) k
  | none => toString q.num ++ "/" ++ toString q.den

/-- Python `str(float)` (natural decimal representation). -/
def decRepr (q : ℚ) : String :=
  if q < 0 then "-" ++ decReprNN (-q) else decReprNN q

/-- Python format `.2f` for a nonnegative value: round half-to-even at two
decimals and print exactly two fraction digits. -/
def twoDecReprNN (q : ℚ) : String :=
  let m := (pyRound (q * 100)).toNat
  toString (m / 100) ++ "." ++ padZeros (toString (m % 100)) 2

/-- Python format `.2f`. -/
def twoDecRepr (q : ℚ) : String :=
  if q < 0 then "-" ++ twoDecReprNN (-q) else twoDecReprNN q

/-- make_half_aggregated.py line 192:
`str(int(round(total))) if abs(total - int(total)) < 1e-9 else str(total)`. -/
def fmtAmountHalf (total : ℚ) : String :=
  if |total - (qTrunc total : ℚ)| < tolC4 then toString (pyRound total)
  else decRepr total

/-- map-to-municipality.py lines 230-233: same test, but the integer branch
prints `int(total)`. -/
def fmtAmountMuni (total : ℚ) : String :=
  if |total - (qTrunc total : ℚ)| < tolC4 then toString (qTrunc total)
  else decRepr total

/-- analyze-data.py lines 32-36: exact integrality test, dollar prefix, and
two-decimal formatting for non-integers. -/
def fmtAmountAnalyze (total : ℚ) : String :=
  if total.den = 1 then "$" ++ toString total.num
  else "$" ++ twoDecRepr total

/-- Modelled from the spec: the section 4.4 display-formatting rule - within
`1e-9` of the nearest integer, the bare integer string; otherwise the natural
decimal representation. -/
def specFmtAmount (total : ℚ) : String :=
  if |total - (pyRound total : ℚ)| < tolC4 then toString (pyRound total)
  else decRepr total

/-- Counterexample to claim C4: the totals-report path (analyze-data.py) does
not apply the shared tolerance rule - at 100.5 it prints a dollar-prefixed
two-decimal string where the spec rule prints the natural decimal form. -/
theorem c4_formatting_rule_cex :
    mkRat 201 2 = 201 / 2
  ∧ fmtAmountAnalyze (mkRat 201 2) = "$100.50"
  ∧ specFmtAmount (mkRat 201 2) = "100.5"
  ∧ fmtAmountAnalyze (mkRat 201 2) ≠ specFmtAmount (mkRat 201 2) := by
  have hsub : mkRat 201 2 - ((100 : ℤ) : ℚ) = 1/2 := by
    rw [Rat.mkRat_eq_div]
    push_cast
    norm_num
  have hmul : mkRat 201 2 * 100 = ((10050 : ℤ) : ℚ) := by
    rw [Rat.mkRat_eq_div]
    push_cast
    norm_num
  have hqf : qFloor (mkRat 201 2) = 100 := by decide
  have hpr : pyRound (mkRat 201 2) = 100 := by
    unfold pyRound
    rw [hqf]
    rw [if_neg (by rw [hsub]; norm_num), if_neg (by rw [hsub]; norm_num),
      if_pos (by norm_num)]
  have htd : twoDecRepr (mkRat 201 2) = "100.50" := by
    unfold twoDecRepr
    rw [if_neg (by decide)]
    unfold twoDecReprNN
    rw [hmul, pyRound_intCast]
    decide
  have he1 : fmtAmountAnalyze (mkRat 201 2) = "$100.50" := by
    unfold fmtAmountAnalyze
    rw [if_neg (by decide), htd]
    decide
  have he2 : specFmtAmount (mkRat 201 2) = "100.5" := by
    unfold specFmtAmount
    rw [hpr]
    rw [if_neg (by
      rw [show |mkRat 201 2 - ((100 : ℤ) : ℚ)| = 1/2 from by rw [hsub]; norm_num]
      norm_num [tolC4])]
    decide
  exact ⟨by rw [Rat.mkRat_eq_div]; norm_num, he1, he2, by rw [he1, he2]; decide⟩

/-- Amended C4: the two GeoJSON emission paths share one rule - a value within
1e-9 of its truncation toward zero (not of its nearest integer) prints as the
bare integer, anything else as its natural decimal representation - and they
agree everywhere; the totals-report path instead tests exact integrality and
prints a dollar-prefixed integer or two-decimal string. -/
theorem c4_formatting_rule :
    (∀ q : ℚ, fmtAmountHalf q = fmtAmountMuni q)
  ∧ (∀ q : ℚ, |q - (qTrunc q : ℚ)| < tolC4 → fmtAmountHalf q = toString (qTrunc q))
  ∧ (∀ q : ℚ, ¬ |q - (qTrunc q : ℚ)| < tolC4 → fmtAmountHalf q = decRepr q)
  ∧ (∀ q : ℚ, q.den = 1 → fmtAmountAnalyze q = "$" ++ toString q.num)
  ∧ (∀ q : ℚ, q.den ≠ 1 → fmtAmountAnalyze q = "$" ++ twoDecRepr q) := by
  refine ⟨?_, ?_, ?_, ?_, ?_⟩
  · intro q
    unfold fmtAmountHalf fmtAmountMuni
    by_cases h : |q - (qTrunc q : ℚ)| < tolC4
    · rw [if_pos h, if_pos h, pyRound_eq_qTrunc q h]
    · rw [if_neg h, if_neg h]
  · intro q h
    unfold fmtAmountHalf
    rw [if_pos h, pyRound_eq_qTrunc q h]
  · intro q h
    unfold fmtAmountHalf
    rw [if_neg h]
  · intro q h
    unfold fmtAmountAnalyze
    rw [if_pos h]
  · intro q h
    unfold fmtAmountAnalyze
    rw [if_neg h]

/-- Witness for the amended C4 at concrete amounts. -/
theorem c4_formatting_rule_witness :
    (|mkRat 60 1 - (qTrunc (mkRat 60 1) : ℚ)| < tolC4 ∧
      fmtAmountHalf (mkRat 60 1) = toString (qTrunc (mkRat 60 1)))
  ∧ (¬ |mkRat 201 2 - (qTrunc (mkRat 201 2) : ℚ)| < tolC4 ∧
      fmtAmountHalf (mkRat 201 2) = decRepr (mkRat 201 2))
  ∧ ((mkRat 201 2).den ≠ 1 ∧
      fmtAmountAnalyze (mkRat 201 2) = "$" ++ twoDecRepr (mkRat 201 2))
  ∧ ((mkRat 3 1).den = 1 ∧
      fmtAmountAnalyze (mkRat 3 1) = "$" ++ toString (mkRat 3 1).num) := by
  have h60 : |mkRat 60 1 - (qTrunc (mkRat 60 1) : ℚ)| < tolC4 := by
    rw [(by decide : qTrunc (mkRat 60 1) = 60),
      show mkRat 60 1 - ((60 : ℤ) : ℚ) = 0 from by rw [Rat.mkRat_eq_div]; push_cast; norm_num]
    norm_num [tolC4]
  have h201 : ¬ |mkRat 201 2 - (qTrunc (mkRat 201 2) : ℚ)| < tolC4 := by
    rw [(by decide : qTrunc (mkRat 201 2) = 100),
      show mkRat 201 2 - ((100 : ℤ) : ℚ) = 1/2 from by rw [Rat.mkRat_eq_div]; push_cast; norm_num,
      show |(1/2 : ℚ)| = 1/2 from by norm_num]
    norm_num [tolC4]
  exact ⟨⟨h60, c4_formatting_rule.2.1 _ h60⟩,
    ⟨h201, c4_formatting_rule.2.2.1 _ h201⟩,
    ⟨by decide, c4_formatting_rule.2.2.2.2 _ (by decide)⟩,
    ⟨by decide, c4_formatting_rule.2.2.2.1 _ (by decide)⟩⟩

/-- The configured aggregate-city set, `AGG_CITIES`
(make_half_aggregated.py line 23).  The Python set is modelled as a list in a
fixed order; every claim about it is order-independent. -/
def AGG_CITIES : List String := ["bozeman", "missoula", "livingston"]

/-- The fixed `(lon, lat)` override coordinates `FIXED_COORDS` for the
aggregated cities (make_half_aggregated.py lines 26-30). -/
def FIXED_COORDS : List (String × Coord) :=
  [("bozeman", ((-111.0640 : ℚ), (45.6903 : ℚ))),
   ("missoula", ((-113.9957 : ℚ), (46.8729 : ℚ))),
   ("livingston", ((-110.5600 : ℚ), (45.6556 : ℚ)))]

/-- Python `str.title()` for ASCII text: a letter following a non-letter is
upper-cased, every other letter lower-cased. -/
def pyTitleAux : Bool → List Char → List Char
  | _, [] => []
  | prev, c :: t => (if prev then c.toLower else c.toUpper) :: pyTitleAux c.isAlpha t

/-- Python `s.title()`. -/
def pyTitle (s : String) : String := String.mk (pyTitleAux false s.toList)

/-- An output GeoJSON feature: a point coordinate and a properties mapping. -/
structure Feature where
  coords : Coord
  props : List (String × String)

/-- Python `a or b or ... or two-quote-empty`: the first truthy value. -/
def firstTruthy : List (Option String) → String
  | [] => ""
  | none :: t => firstTruthy t
  | some s :: t => if s = "" then firstTruthy t else s

/-- `row.get(CITY) or row.get(City) or empty` (make_half_aggregated.py line 156). -/
def rowCity (row : Row) : String := firstTruthy [rowGet row "CITY", rowGet row "City"]

/-- `row.get(ZIP) or row.get(Zip) or row.get(zip) or empty` (line 167). -/
def rowZipRaw (row : Row) : String :=
  firstTruthy [rowGet row "ZIP", rowGet row "Zip", rowGet row "zip"]

/-- `parse_amount(row.get(AMNT) or row.get(AMOUNT) or empty)` (line 158). -/
def rowAmt (row : Row) : ℚ :=
  parse_amount (some (firstTruthy [rowGet row "AMNT", rowGet row "AMOUNT"]))

/-- Loop state of make_half_aggregated.py `main` (lines 148-151): per-city
sums and counts plus the individual feature list. -/
structure EngSt where
  sums : String → ℚ
  counts : String → ℕ
  feats : List Feature

/-- The initial accumulators (sums and counts start at zero for every city). -/
def initSt : EngSt := ⟨fun _ => 0, fun _ => 0, []⟩

/-- One donation record through the loop body of make_half_aggregated.py
`main` (lines 155-177): an aggregate-city record updates its bucket and emits
nothing; any other record is resolved and either appended as an individual
feature or dropped. -/
def processRow (zm mp : List (String × Coord)) (st : EngSt) (row : Row) : EngSt :=
  let city := normCity (rowCity row)
  let amt := rowAmt row
  if AGG_CITIES.contains city then
    { st with
      sums := fun x => if x = city then st.sums x + amt else st.sums x,
      counts := fun x => if x = city then st.counts x + 1 else st.counts x }
  else
    match resolveHalf zm mp (rowZipRaw row) city with
    | some c => { st with feats := st.feats ++ [⟨c, row⟩] }
    | none => st

/-- The record loop of make_half_aggregated.py `main`. -/
def runHalf (zm mp : List (String × Coord)) (rows : List Row) : EngSt :=
  rows.foldl (processRow zm mp) initSt

/-- Properties of a synthesized aggregate feature
(make_half_aggregated.py lines 190-196). -/
def aggProps (c : String) (total : ℚ) : List (String × String) :=
  [("NAME OF CONTRIBUTOR", pyTitle c), ("AMNT", fmtAmountHalf total),
   ("ZIP", ""), ("EMPLOYER", ""), ("ADDRESS", ""), ("PHONE", "")]

/-- The aggregate-feature emission loop (make_half_aggregated.py
lines 179-197): per aggregate city, skip a zero sum, take the fixed override
coordinate or else the municipality centroid, skip if neither exists. -/
def emitAgg (mp : List (String × Coord)) (sums : String → ℚ) : List Feature :=
  AGG_CITIES.filterMap (fun c =>
    if sums c = 0 then none
    else
      match (dGet FIXED_COORDS c).or (dGet mp c) with
      | some coords => some ⟨coords, aggProps c (sums c)⟩
      | none => none)

/-- The full output feature list of make_half_aggregated.py `main`. -/
def halfFeatures (zm mp : List (String × Coord)) (rows : List Row) : List Feature :=
  (runHalf zm mp rows).feats ++ emitAgg mp (runHalf zm mp rows).sums

/-- The individual feature a single row contributes: none for aggregate-city
rows and unresolved rows. -/
def indivFeature (zm mp : List (String × Coord)) (row : Row) : Option Feature :=
  if AGG_CITIES.contains (normCity (rowCity row)) then none
  else (resolveHalf zm mp (rowZipRaw row) (normCity (rowCity row))).map
    (fun c => Feature.mk c row)

/-- Sum of parsed amounts over the rows normalizing to city `c`. -/
def sumAmts (c : String) (rows : List Row) : ℚ :=
  ((rows.filter (fun r => normCity (rowCity r) == c)).map rowAmt).sum

/-- Number of rows normalizing to city `c`. -/
def countRows (c : String) (rows : List Row) : ℕ :=
  (rows.filter (fun r => normCity (rowCity r) == c)).length

theorem runHalf_general (zm mp : List (String × Coord)) (rows : List Row)
    (st : EngSt) (c : String) (hc : AGG_CITIES.contains c = true) :
    (rows.foldl (processRow zm mp) st).sums c = st.sums c + sumAmts c rows
  ∧ (rows.foldl (processRow zm mp) st).counts c = st.counts c + countRows c rows
  ∧ (rows.foldl (processRow zm mp) st).feats =
      st.feats ++ rows.filterMap (indivFeature zm mp) := by
  induction rows generalizing st with
  | nil => refine ⟨?_, ?_, ?_⟩ <;> simp [sumAmts, countRows]
  | cons r rs ih =>
    rw [List.foldl_cons]
    obtain ⟨ihs, ihc, ihf⟩ := ih (processRow zm mp st r)
    by_cases hmem : AGG_CITIES.contains (normCity (rowCity r)) = true
    · have hst : processRow zm mp st r = { st with
          sums := fun x => if x = normCity (rowCity r) then st.sums x + rowAmt r
            else st.sums x,
          counts := fun x => if x = normCity (rowCity r) then st.counts x + 1
            else st.counts x } := by
        simp only [processRow]
        rw [if_pos hmem]
      have hindiv : indivFeature zm mp r = none := by
        simp only [indivFeature]
        rw [if_pos hmem]
      by_cases hcity : normCity (rowCity r) = c
      · have hbeq : (normCity (rowCity r) == c) = true := by simpa using hcity
        refine ⟨?_, ?_, ?_⟩
        · rw [ihs, hst]
          simp only [sumAmts, List.filter_cons, hbeq, if_true, List.map_cons,
            List.sum_cons]
          rw [if_pos hcity.symm]
          ring
        · rw [ihc, hst]
          simp only [countRows, List.filter_cons, hbeq, if_true, List.length_cons]
          rw [if_pos hcity.symm]
          omega
        · rw [ihf, hst]
          simp only [List.filterMap_cons, hindiv]
      · have hbeq : (normCity (rowCity r) == c) = false := by simpa using hcity
        refine ⟨?_, ?_, ?_⟩
        · rw [ihs, hst]
          simp only [sumAmts, List.filter_cons, hbeq, Bool.false_eq_true, if_false]
          rw [if_neg (fun he => hcity he.symm)]
        · rw [ihc, hst]
          simp only [countRows, List.filter_cons, hbeq, Bool.false_eq_true, if_false]
          rw [if_neg (fun he => hcity he.symm)]
        · rw [ihf, hst]
          simp only [List.filterMap_cons, hindiv]
    · have hcity : normCity (rowCity r) ≠ c := by
        intro he
        rw [he] at hmem
        exact hmem hc
      have hbeq : (normCity (rowCity r) == c) = false := by simpa using hcity
      have hindiv : indivFeature zm mp r =
          (resolveHalf zm mp (rowZipRaw r) (normCity (rowCity r))).map
            (fun c0 => Feature.mk c0 r) := by
        simp only [indivFeature]
        rw [if_neg hmem]
      cases hres : resolveHalf zm mp (rowZipRaw r) (normCity (rowCity r)) with
      | none =>
        have hst : processRow zm mp st r = st := by
          simp only [processRow]
          rw [if_neg hmem, hres]
        refine ⟨?_, ?_, ?_⟩
        · rw [ihs, hst]
          simp only [sumAmts, List.filter_cons, hbeq, Bool.false_eq_true, if_false]
        · rw [ihc, hst]
          simp only [countRows, List.filter_cons, hbeq, Bool.false_eq_true, if_false]
        · rw [ihf, hst]
          simp only [List.filterMap_cons, hindiv, hres, Option.map_none']
      | some c0 =>
        have hst : processRow zm mp st r =
            { st with feats := st.feats ++ [Feature.mk c0 r] } := by
          simp only [processRow]
          rw [if_neg hmem, hres]
        refine ⟨?_, ?_, ?_⟩
        · rw [ihs, hst]
          simp only [sumAmts, List.filter_cons, hbeq, Bool.false_eq_true, if_false]
        · rw [ihc, hst]
          simp only [countRows, List.filter_cons, hbeq, Bool.false_eq_true, if_false]
        · rw [ihf, hst]
          simp only [List.filterMap_cons, hindiv, hres, Option.map_some']
          rw [List.append_assoc]
          rfl

theorem countP_if_nil (p : Feature → Bool) (A : Prop) [Decidable A] (x : Feature) :
    (if A then ([] : List Feature) else [x]).countP p =
      if A then 0 else (if p x then 1 else 0) := by
  by_cases hA : A
  · rw [if_pos hA, if_pos hA]
    rfl
  · rw [if_neg hA, if_neg hA]
    simp [List.countP_cons]

theorem mem_if_nil {A : Prop} [Decidable A] {x f : Feature}
    (h : f ∈ (if A then ([] : List Feature) else [x])) : ¬ A ∧ f = x := by
  by_cases hA : A
  · rw [if_pos hA] at h
    exact absurd h (List.not_mem_nil f)
  · rw [if_neg hA] at h
    exact ⟨hA, List.mem_singleton.mp h⟩

theorem pred_aggProps (c ci : String) (t : ℚ) :
    (dGet (aggProps ci t) "NAME OF CONTRIBUTOR" == some (pyTitle c)) =
      (pyTitle ci == pyTitle c) := rfl

theorem emitAgg_eq (mp : List (String × Coord)) (sums : String → ℚ) :
    emitAgg mp sums =
      (if sums "bozeman" = 0 then [] else
        [Feature.mk ((-111.0640 : ℚ), (45.6903 : ℚ))
          (aggProps "bozeman" (sums "bozeman"))])
      ++ ((if sums "missoula" = 0 then [] else
        [Feature.mk ((-113.9957 : ℚ), (46.8729 : ℚ))
          (aggProps "missoula" (sums "missoula"))])
      ++ (if sums "livingston" = 0 then [] else
        [Feature.mk ((-110.5600 : ℚ), (45.6556 : ℚ))
          (aggProps "livingston" (sums "livingston"))])) := by
  have hb : (dGet FIXED_COORDS "bozeman").or (dGet mp "bozeman") =
      some ((-111.0640 : ℚ), (45.6903 : ℚ)) := rfl
  have hm : (dGet FIXED_COORDS "missoula").or (dGet mp "missoula") =
      some ((-113.9957 : ℚ), (46.8729 : ℚ)) := rfl
  have hl : (dGet FIXED_COORDS "livingston").or (dGet mp "livingston") =
      some ((-110.5600 : ℚ), (45.6556 : ℚ)) := rfl
  simp only [emitAgg, AGG_CITIES, List.filterMap_cons, List.filterMap_nil, hb, hm, hl]
  by_cases h1 : sums "bozeman" = 0 <;> by_cases h2 : sums "missoula" = 0 <;>
    by_cases h3 : sums "livingston" = 0 <;> simp [h1, h2, h3]

theorem emitAgg_countP (mp : List (String × Coord)) (sums : String → ℚ)
    (c : String) (hc : c ∈ AGG_CITIES) :
    (emitAgg mp sums).countP
      (fun f => dGet f.props "NAME OF CONTRIBUTOR" == some (pyTitle c)) =
      (if sums c = 0 then 0 else 1) := by
  rw [emitAgg_eq, List.countP_append, List.countP_append,
    countP_if_nil, countP_if_nil, countP_if_nil]
  simp only [AGG_CITIES, List.mem_cons, List.mem_singleton, List.not_mem_nil,
    or_false] at hc
  rcases hc with rfl | rfl | rfl
  · simp [pred_aggProps, (by decide : (pyTitle "bozeman" == pyTitle "bozeman") = true),
      (by decide : (pyTitle "missoula" == pyTitle "bozeman") = false),
      (by decide : (pyTitle "livingston" == pyTitle "bozeman") = false)]
  · simp [pred_aggProps, (by decide : (pyTitle "bozeman" == pyTitle "missoula") = false),
      (by decide : (pyTitle "missoula" == pyTitle "missoula") = true),
      (by decide : (pyTitle "livingston" == pyTitle "missoula") = false)]
  · simp [pred_aggProps, (by decide : (pyTitle "bozeman" == pyTitle "livingston") = false),
      (by decide : (pyTitle "missoula" == pyTitle "livingston") = false),
      (by decide : (pyTitle "livingston" == pyTitle "livingston") = true)]

theorem emitAgg_amount (mp : List (String × Coord)) (sums : String → ℚ)
    (c : String) (hc : c ∈ AGG_CITIES) :
    ∀ f ∈ emitAgg mp sums,
      dGet f.props "NAME OF CONTRIBUTOR" = some (pyTitle c) →
      dGet f.props "AMNT" = some (fmtAmountHalf (sums c)) := by
  simp only [AGG_CITIES, List.mem_cons, List.mem_singleton, List.not_mem_nil,
    or_false] at hc
  intro f hf hname
  rw [emitAgg_eq] at hf
  rcases List.mem_append.mp hf with h | h
  · obtain ⟨_, hfx⟩ := mem_if_nil h
    subst hfx
    have h' : some (pyTitle "bozeman") = some (pyTitle c) := hname
    rcases hc with rfl | rfl | rfl
    · rfl
    · exact absurd (Option.some.inj h') (by decide)
    · exact absurd (Option.some.inj h') (by decide)
  · rcases List.mem_append.mp h with h | h
    · obtain ⟨_, hfx⟩ := mem_if_nil h
      subst hfx
      have h' : some (pyTitle "missoula") = some (pyTitle c) := hname
      rcases hc with rfl | rfl | rfl
      · exact absurd (Option.some.inj h') (by decide)
      · rfl
      · exact absurd (Option.some.inj h') (by decide)
    · obtain ⟨_, hfx⟩ := mem_if_nil h
      subst hfx
      have h' : some (pyTitle "livingston") = some (pyTitle c) := hname
      rcases hc with rfl | rfl | rfl
      · exact absurd (Option.some.inj h') (by decide)
      · exact absurd (Option.some.inj h') (by decide)
      · rfl

/-- Claim C2: every record whose normalized city is in the aggregate-city set
adds its parsed amount to that city's bucket and increments its count; the
loop emits individual features exactly for the resolved non-aggregate records;
after all records, the aggregate emission contains exactly one synthesized
feature for an aggregate city iff its accumulated sum is non-zero, and that
feature carries the display-formatted summed amount. -/
theorem c2_aggregation (zm mp : List (String × Coord)) (rows : List Row)
    (c : String) (hc : c ∈ AGG_CITIES) :
    (runHalf zm mp rows).sums c = sumAmts c rows
  ∧ (runHalf zm mp rows).counts c = countRows c rows
  ∧ (runHalf zm mp rows).feats = rows.filterMap (indivFeature zm mp)
  ∧ (emitAgg mp (runHalf zm mp rows).sums).countP
      (fun f => dGet f.props "NAME OF CONTRIBUTOR" == some (pyTitle c)) =
      (if (runHalf zm mp rows).sums c = 0 then 0 else 1)
  ∧ (∀ f ∈ emitAgg mp (runHalf zm mp rows).sums,
      dGet f.props "NAME OF CONTRIBUTOR" = some (pyTitle c) →
      dGet f.props "AMNT" = some (fmtAmountHalf ((runHalf zm mp rows).sums c))) := by
  have hcb : AGG_CITIES.contains c = true := List.elem_iff.mpr hc
  obtain ⟨hs, hcnt, hf⟩ := runHalf_general zm mp rows initSt c hcb
  refine ⟨?_, ?_, ?_, emitAgg_countP mp _ c hc, emitAgg_amount mp _ c hc⟩
  · simpa [runHalf, initSt] using hs
  · simpa [runHalf, initSt] using hcnt
  · simpa [runHalf, initSt] using hf

theorem parse_amount_eval (s s2 : String) (p : FloatParts) (q : ℚ)
    (hs : stripAmountChars s = s2) (hne : s2 ≠ "")
    (hp : floatParts? s2 = some p) (hv : partsVal p = q) :
    parse_amount (some s) = q := by
  simp only [parse_amount, hs]
  rw [if_neg hne]
  simp [pyFloat?, hp, hv]

/-- Witness for C2: three Bozeman records with amounts 10, 20, 30 (as in spec
section 8) produce a bucket sum of 60, a count of 3, no individual features,
and exactly one aggregate feature for Bozeman. -/
theorem c2_aggregation_witness :
    "bozeman" ∈ AGG_CITIES
  ∧ (runHalf [] [] [[("CITY", "Bozeman"), ("AMNT", "10")],
      [("CITY", "BOZEMAN "), ("AMNT", "20")],
      [("CITY", "bozeman"), ("AMNT", "30")]]).sums "bozeman" = 60
  ∧ (runHalf [] [] [[("CITY", "Bozeman"), ("AMNT", "10")],
      [("CITY", "BOZEMAN "), ("AMNT", "20")],
      [("CITY", "bozeman"), ("AMNT", "30")]]).counts "bozeman" = 3
  ∧ (runHalf [] [] [[("CITY", "Bozeman"), ("AMNT", "10")],
      [("CITY", "BOZEMAN "), ("AMNT", "20")],
      [("CITY", "bozeman"), ("AMNT", "30")]]).feats = []
  ∧ (emitAgg [] (runHalf [] [] [[("CITY", "Bozeman"), ("AMNT", "10")],
      [("CITY", "BOZEMAN "), ("AMNT", "20")],
      [("CITY", "bozeman"), ("AMNT", "30")]]).sums).countP
      (fun f => dGet f.props "NAME OF CONTRIBUTOR" == some (pyTitle "bozeman")) = 1 := by
  obtain ⟨hs, hcnt, hf, hcp, _⟩ := c2_aggregation [] []
    [[("CITY", "Bozeman"), ("AMNT", "10")],
     [("CITY", "BOZEMAN "), ("AMNT", "20")],
     [("CITY", "bozeman"), ("AMNT", "30")]] "bozeman" (by decide)
  have ha1 : rowAmt [("CITY", "Bozeman"), ("AMNT", "10")] = 10 := by
    unfold rowAmt
    rw [show firstTruthy [rowGet [("CITY", "Bozeman"), ("AMNT", "10")] "AMNT",
      rowGet [("CITY", "Bozeman"), ("AMNT", "10")] "AMOUNT"] = "10" from by decide]
    exact parse_amount_eval "10" "10" ⟨false, 10, 0, 0, 0⟩ 10 (by decide) (by decide)
      (by decide) (by norm_num [partsVal])
  have ha2 : rowAmt [("CITY", "BOZEMAN "), ("AMNT", "20")] = 20 := by
    unfold rowAmt
    rw [show firstTruthy [rowGet [("CITY", "BOZEMAN "), ("AMNT", "20")] "AMNT",
      rowGet [("CITY", "BOZEMAN "), ("AMNT", "20")] "AMOUNT"] = "20" from by decide]
    exact parse_amount_eval "20" "20" ⟨false, 20, 0, 0, 0⟩ 20 (by decide) (by decide)
      (by decide) (by norm_num [partsVal])
  have ha3 : rowAmt [("CITY", "bozeman"), ("AMNT", "30")] = 30 := by
    unfold rowAmt
    rw [show firstTruthy [rowGet [("CITY", "bozeman"), ("AMNT", "30")] "AMNT",
      rowGet [("CITY", "bozeman"), ("AMNT", "30")] "AMOUNT"] = "30" from by decide]
    exact parse_amount_eval "30" "30" ⟨false, 30, 0, 0, 0⟩ 30 (by decide) (by decide)
      (by decide) (by norm_num [partsVal])
  have hsum : sumAmts "bozeman" [[("CITY", "Bozeman"), ("AMNT", "10")],
      [("CITY", "BOZEMAN "), ("AMNT", "20")],
      [("CITY", "bozeman"), ("AMNT", "30")]] = 60 := by
    simp only [sumAmts, List.filter_cons, List.filter_nil,
      (by decide : (normCity (rowCity [("CITY", "Bozeman"), ("AMNT", "10")]) == "bozeman") = true),
      (by decide : (normCity (rowCity [("CITY", "BOZEMAN "), ("AMNT", "20")]) == "bozeman") = true),
      (by decide : (normCity (rowCity [("CITY", "bozeman"), ("AMNT", "30")]) == "bozeman") = true),
      if_true, List.map_cons, List.map_nil, List.sum_cons, List.sum_nil,
      ha1, ha2, ha3]
    norm_num
  have hcount : countRows "bozeman" [[("CITY", "Bozeman"), ("AMNT", "10")],
      [("CITY", "BOZEMAN "), ("AMNT", "20")],
      [("CITY", "bozeman"), ("AMNT", "30")]] = 3 := by
    simp only [countRows, List.filter_cons, List.filter_nil,
      (by decide : (normCity (rowCity [("CITY", "Bozeman"), ("AMNT", "10")]) == "bozeman") = true),
      (by decide : (normCity (rowCity [("CITY", "BOZEMAN "), ("AMNT", "20")]) == "bozeman") = true),
      (by decide : (normCity (rowCity [("CITY", "bozeman"), ("AMNT", "30")]) == "bozeman") = true),
      if_true, List.length_cons, List.length_nil]
  have hfeat : ([[("CITY", "Bozeman"), ("AMNT", "10")],
      [("CITY", "BOZEMAN "), ("AMNT", "20")],
      [("CITY", "bozeman"), ("AMNT", "30")]] : List Row).filterMap
      (indivFeature [] []) = [] := by
    have hi1 : indivFeature [] [] [("CITY", "Bozeman"), ("AMNT", "10")] = none := by
      simp only [indivFeature]
      rw [if_pos (by decide)]
    have hi2 : indivFeature [] [] [("CITY", "BOZEMAN "), ("AMNT", "20")] = none := by
      simp only [indivFeature]
      rw [if_pos (by decide)]
    have hi3 : indivFeature [] [] [("CITY", "bozeman"), ("AMNT", "30")] = none := by
      simp only [indivFeature]
      rw [if_pos (by decide)]
    simp [List.filterMap_cons, hi1, hi2, hi3]
  refine ⟨by decide, ?_, ?_, ?_, ?_⟩
  · rw [hs, hsum]
  · rw [hcnt, hcount]
  · rw [hf, hfeat]
  · rw [hcp, hs, hsum]
    norm_num
